import Mathlib

/-!
Shallow embedding of the FormEngine validation/visibility engine.

Source of truth: `src/src/engine/FormEngine.tsx` (namespace `Engine` below)
and the second copy of the same engine in `src/unnamed/part_000`
(namespace `Part000` below).  JavaScript runtime values are modelled by
`JSValue`; JS numbers are modelled by `Int` (the claims under scrutiny do
not depend on float behaviour), JS strict equality `===` by the structural
`JSValue.beq`, and JS objects used as string-keyed maps by association
lists in insertion order (object keys are unique, which is why an
association list is a faithful model of `err[id] = e` insertion).
Regular expressions are modelled as opaque string predicates, and custom
validator callbacks as Lean functions.
-/

/-- Model of a JavaScript runtime value as used by the form engine:
null, undefined, booleans, numbers (as `Int`), strings and arrays. -/
inductive JSValue where
  | jsnull
  | undefined
  | bool (b : Bool)
  | num (n : Int)
  | str (s : String)
  | arr (xs : List JSValue)

mutual

/-- Structural equality on `JSValue`, the model of JS strict equality
`===` (and of `Array.prototype.includes` element comparison).  For
primitives this coincides with `===`; arrays are compared structurally. -/
def JSValue.beq : JSValue → JSValue → Bool
  | .jsnull, .jsnull => true
  | .undefined, .undefined => true
  | .bool a, .bool b => a == b
  | .num a, .num b => a == b
  | .str a, .str b => a == b
  | .arr as, .arr bs => JSValue.beqList as bs
  | _, _ => false

/-- Pointwise `JSValue.beq` on lists. -/
def JSValue.beqList : List JSValue → List JSValue → Bool
  | [], [] => true
  | a :: as, b :: bs => JSValue.beq a b && JSValue.beqList as bs
  | _, _ => false

end

instance : BEq JSValue := ⟨JSValue.beq⟩

mutual

theorem JSValue.beq_iff_eq : ∀ a b : JSValue, JSValue.beq a b = true ↔ a = b
  | .jsnull, .jsnull => by simp [JSValue.beq]
  | .undefined, .undefined => by simp [JSValue.beq]
  | .bool _, .bool _ => by simp [JSValue.beq]
  | .num _, .num _ => by simp [JSValue.beq]
  | .str _, .str _ => by simp [JSValue.beq]
  | .arr as, .arr bs => by simp [JSValue.beq, JSValue.beqList_iff_eq as bs]
  | .jsnull, .undefined => by simp [JSValue.beq]
  | .jsnull, .bool _ => by simp [JSValue.beq]
  | .jsnull, .num _ => by simp [JSValue.beq]
  | .jsnull, .str _ => by simp [JSValue.beq]
  | .jsnull, .arr _ => by simp [JSValue.beq]
  | .undefined, .jsnull => by simp [JSValue.beq]
  | .undefined, .bool _ => by simp [JSValue.beq]
  | .undefined, .num _ => by simp [JSValue.beq]
  | .undefined, .str _ => by simp [JSValue.beq]
  | .undefined, .arr _ => by simp [JSValue.beq]
  | .bool _, .jsnull => by simp [JSValue.beq]
  | .bool _, .undefined => by simp [JSValue.beq]
  | .bool _, .num _ => by simp [JSValue.beq]
  | .bool _, .str _ => by simp [JSValue.beq]
  | .bool _, .arr _ => by simp [JSValue.beq]
  | .num _, .jsnull => by simp [JSValue.beq]
  | .num _, .undefined => by simp [JSValue.beq]
  | .num _, .bool _ => by simp [JSValue.beq]
  | .num _, .str _ => by simp [JSValue.beq]
  | .num _, .arr _ => by simp [JSValue.beq]
  | .str _, .jsnull => by simp [JSValue.beq]
  | .str _, .undefined => by simp [JSValue.beq]
  | .str _, .bool _ => by simp [JSValue.beq]
  | .str _, .num _ => by simp [JSValue.beq]
  | .str _, .arr _ => by simp [JSValue.beq]
  | .arr _, .jsnull => by simp [JSValue.beq]
  | .arr _, .undefined => by simp [JSValue.beq]
  | .arr _, .bool _ => by simp [JSValue.beq]
  | .arr _, .num _ => by simp [JSValue.beq]
  | .arr _, .str _ => by simp [JSValue.beq]

theorem JSValue.beqList_iff_eq :
    ∀ as bs : List JSValue, JSValue.beqList as bs = true ↔ as = bs
  | [], [] => by simp [JSValue.beqList]
  | a :: as, b :: bs => by
      simp [JSValue.beqList, JSValue.beq_iff_eq a b, JSValue.beqList_iff_eq as bs]
  | [], _ :: _ => by simp [JSValue.beqList]
  | _ :: _, [] => by simp [JSValue.beqList]

end

instance : DecidableEq JSValue := fun a b =>
  decidable_of_iff (JSValue.beq a b = true) (JSValue.beq_iff_eq a b)

instance : LawfulBEq JSValue where
  eq_of_beq h := (JSValue.beq_iff_eq _ _).mp h
  rfl := (JSValue.beq_iff_eq _ _).mpr rfl

/-- JS truthiness of a value (used by `if (r.required && ...)`,
`if (e) err[id] = e`, etc.).  null, undefined, false, 0 and the empty
string are falsy; everything else (including every array) is truthy. -/
def truthy : JSValue → Bool
  | .jsnull => false
  | .undefined => false
  | .bool b => b
  | .num n => n != 0
  | .str s => s != ""
  | .arr _ => true

/-- Model of `String.prototype.trim`: drop whitespace from both ends.
Defined over the character list so that it is kernel-computable (the
library function `String.trim` uses well-founded recursion over byte
positions and does not reduce in the kernel). -/
def jsTrim (s : String) : String :=
  ⟨((s.data.dropWhile Char.isWhitespace).reverse.dropWhile Char.isWhitespace).reverse⟩

/-- `FormValues` from `types.ts`: a string-keyed bag of values, modelled
as an association list in insertion order. -/
abbrev FormValues := List (String × JSValue)

/-- `FormErrors`: the error map built by `validateForm`, keyed by field
identifier.  The stored error is whatever truthy value `validateField`
returned (normally a message string). -/
abbrev FormErrors := List (String × JSValue)

/-- Object indexing `values[key]`: the stored value, or `undefined` when
the key is absent. -/
def getProp (values : FormValues) (key : String) : JSValue :=
  match values.find? (fun p => p.1 == key) with
  | some p => p.2
  | none => JSValue.undefined

/-- A `{ value, message }` rule carrying a numeric threshold, used for
`minLength`, `maxLength`, `min` and `max`. -/
structure ThresholdRule where
  value : Int
  message : String

/-- A `{ value, message }` rule whose value is a regular expression,
modelled as the predicate `RegExp.prototype.test`. -/
structure PatternRule where
  test : String → Bool
  message : String

/-- The rule set of a field (`field.rules`).  `required` holds the raw
configured value (`undefined` models an absent `required` key, matching
the truthiness test `if (r.required && ...)`); the object-valued rules
are `Option`s since a present rule object is always truthy. -/
structure Rules where
  required : JSValue := JSValue.undefined
  minLength : Option ThresholdRule := none
  maxLength : Option ThresholdRule := none
  pattern : Option PatternRule := none
  min : Option ThresholdRule := none
  max : Option ThresholdRule := none
  validate : Option (JSValue → FormValues → JSValue) := none

/-- A visibility condition `{ field, op, value }`.  The operator is kept
as a raw string, matching the runtime `switch (c.op)` whose `default`
branch handles every string not among the four listed cases. -/
structure Condition where
  field : String
  op : String
  value : JSValue

/-- `field.visibleWhen`: a single condition or an array of conditions
(the code branches on `Array.isArray(field.visibleWhen)`). -/
inductive VisibleWhen where
  | single (c : Condition)
  | many (cs : List Condition)

/-- A field definition, restricted to the parts the engine logic reads:
`label` (used only in spec claims about messages), `rules` and
`visibleWhen`.  Renderer tag, placeholder, props and default value are
consumed only by the rendering layer, which is outside the verified
engine. -/
structure FormField where
  label : String := ""
  rules : Option Rules := none
  visibleWhen : Option VisibleWhen := none

/-- A form schema, restricted to its field map: an insertion-ordered
association list from field identifier to field definition
(`Object.entries(schema.fields)` iterates it in that order).  Metadata
and layout are not read by the validation/visibility functions. -/
structure FormSchema where
  fields : List (String × FormField)

namespace Engine

/-- `isEmpty` from FormEngine.tsx line 7: a value is empty iff it is
null, undefined, a string that trims to empty, or an array of length 0. -/
def isEmpty : JSValue → Bool
  | .jsnull => true
  | .undefined => true
  | .str s => jsTrim s == ""
  | .arr xs => xs.length == 0
  | _ => false

/-- The `r.minLength` early return inside `validateField`
(`if (r.minLength && value.length < r.minLength.value) return r.minLength.message`). -/
def checkMinLength (r : Rules) (len : Int) : Option String :=
  match r.minLength with
  | some rule => if len < rule.value then some rule.message else none
  | none => none

/-- The `r.maxLength` early return inside `validateField`. -/
def checkMaxLength (r : Rules) (len : Int) : Option String :=
  match r.maxLength with
  | some rule => if len > rule.value then some rule.message else none
  | none => none

/-- The `r.pattern` early return inside `validateField`
(`if (r.pattern && !r.pattern.value.test(value)) return r.pattern.message`). -/
def checkPattern (r : Rules) (s : String) : Option String :=
  match r.pattern with
  | some rule => if !rule.test s then some rule.message else none
  | none => none

/-- The `r.min` early return inside `validateField`. -/
def checkMin (r : Rules) (n : Int) : Option String :=
  match r.min with
  | some rule => if n < rule.value then some rule.message else none
  | none => none

/-- The `r.max` early return inside `validateField`. -/
def checkMax (r : Rules) (n : Int) : Option String :=
  match r.max with
  | some rule => if n > rule.value then some rule.message else none
  | none => none

/-- The type-directed built-in checks of `validateField` lines 16-27:
strings get minLength, then maxLength, then pattern; numbers get min,
then max; arrays get minLength only; every other type gets no built-in
check.  Returns the first violated rule's message, in source order. -/
def typeChecks (r : Rules) (value : JSValue) : Option String :=
  match value with
  | .str s =>
      (checkMinLength r (s.length : Int)).orElse fun _ =>
        (checkMaxLength r (s.length : Int)).orElse fun _ =>
          checkPattern r s
  | .num n => (checkMin r n).orElse fun _ => checkMax r n
  | .arr xs => checkMinLength r (xs.length : Int)
  | _ => none

/-- The `r.validate` block of `validateField` lines 28-32: call the
custom callback with `(value, all)`; a string result is the error, the
result `false` yields the literal message "Invalid", anything else falls
through to `return null`. -/
def runCustom (r : Rules) (value : JSValue) (all : FormValues) : JSValue :=
  match r.validate with
  | some f =>
      match f value all with
      | .str s => JSValue.str s
      | .bool false => JSValue.str "Invalid"
      | _ => JSValue.jsnull
  | none => JSValue.jsnull

/-- `validateField` from FormEngine.tsx lines 10-34.  Returns `jsnull`
for "no error"; otherwise the value returned by the first firing check
(for the required check this is the raw `r.required` value itself). -/
def validateField (field : FormField) (value : JSValue) (all : FormValues) : JSValue :=
  match field.rules with
  | none => JSValue.jsnull
  | some r =>
      if truthy r.required && isEmpty value then r.required
      else if isEmpty value then JSValue.jsnull
      else
        match typeChecks r value with
        | some msg => JSValue.str msg
        | none => runCustom r value all

/-- One arm of the `switch (c.op)` inside `isVisible` (lines 39-47):
equals, notEquals, in, notIn, and the fail-open `default: return true`. -/
def evalCond (c : Condition) (values : FormValues) : Bool :=
  let fv := getProp values c.field
  if c.op == "equals" then fv == c.value
  else if c.op == "notEquals" then fv != c.value
  else if c.op == "in" then
    match c.value with
    | .arr xs => xs.contains fv
    | _ => false
  else if c.op == "notIn" then
    match c.value with
    | .arr xs => !xs.contains fv
    | _ => true
  else true

/-- `isVisible` from FormEngine.tsx lines 36-49: no condition means
visible; a single condition is wrapped in a one-element list; every
condition must hold (AND). -/
def isVisible (field : FormField) (values : FormValues) : Bool :=
  match field.visibleWhen with
  | none => true
  | some vw =>
      let conds := match vw with
        | .single c => [c]
        | .many cs => cs
      conds.all fun c => evalCond c values

/-- The `forEach` body of `validateForm` (lines 54-58), recursing over
the entries of `schema.fields` in order: hidden fields are skipped, and
a truthy validation result is inserted under the field's id. -/
def validateFormFields (fields : List (String × FormField)) (values : FormValues) : FormErrors :=
  match fields with
  | [] => []
  | (id, f) :: rest =>
      if isVisible f values then
        let e := validateField f (getProp values id) values
        if truthy e then (id, e) :: validateFormFields rest values
        else validateFormFields rest values
      else validateFormFields rest values

/-- `validateForm` from FormEngine.tsx lines 52-60. -/
def validateForm (schema : FormSchema) (values : FormValues) : FormErrors :=
  validateFormFields schema.fields values

/-- The observable outcome of one `handleSubmit` call: the touched set it
installs, the error map it installs, and — when the callback fires — the
single payload passed to `onSubmit` (`none` means `onSubmit` was not
invoked). -/
structure SubmitOutcome where
  touched : List String
  errors : FormErrors
  submitted : Option FormValues

/-- `handleSubmit` from FormEngine.tsx lines 105-112: touch all field
ids of the schema, re-validate the whole form, and call
`onSubmit?.(values)` (with the complete current value bag) iff the new
error map is empty. -/
def handleSubmit (schema : FormSchema) (values : FormValues) : SubmitOutcome :=
  let allIds := schema.fields.map Prod.fst
  let err := validateForm schema values
  { touched := allIds
    errors := err
    submitted := if err.length == 0 then some values else none }

end Engine

namespace Part000

/-!
The second copy of the engine, from `src/unnamed/part_000` (a file whose
leading comment names it FormEngine.tsx).  Its `isEmpty`, `validateField`,
`isVisible` and `validateForm` (lines 8-63) differ from the copy above
only in local variable names (`value`/`rules`/`formValues`/`condition`
instead of `v`/`r`/`all`/`c`).  They are re-translated here independently
so that the two copies can be compared.
-/

/-- `isEmpty` from part_000 lines 8-9. -/
def isEmpty : JSValue → Bool
  | .jsnull => true
  | .undefined => true
  | .str s => jsTrim s == ""
  | .arr xs => xs.length == 0
  | _ => false

/-- The `rules.minLength` early return inside part_000's `validateField`. -/
def checkMinLength (rules : Rules) (len : Int) : Option String :=
  match rules.minLength with
  | some rule => if len < rule.value then some rule.message else none
  | none => none

/-- The `rules.maxLength` early return inside part_000's `validateField`. -/
def checkMaxLength (rules : Rules) (len : Int) : Option String :=
  match rules.maxLength with
  | some rule => if len > rule.value then some rule.message else none
  | none => none

/-- The `rules.pattern` early return inside part_000's `validateField`. -/
def checkPattern (rules : Rules) (s : String) : Option String :=
  match rules.pattern with
  | some rule => if !rule.test s then some rule.message else none
  | none => none

/-- The `rules.min` early return inside part_000's `validateField`. -/
def checkMin (rules : Rules) (n : Int) : Option String :=
  match rules.min with
  | some rule => if n < rule.value then some rule.message else none
  | none => none

/-- The `rules.max` early return inside part_000's `validateField`. -/
def checkMax (rules : Rules) (n : Int) : Option String :=
  match rules.max with
  | some rule => if n > rule.value then some rule.message else none
  | none => none

/-- The type-directed built-in checks of part_000's `validateField`
lines 18-29. -/
def typeChecks (rules : Rules) (value : JSValue) : Option String :=
  match value with
  | .str s =>
      (checkMinLength rules (s.length : Int)).orElse fun _ =>
        (checkMaxLength rules (s.length : Int)).orElse fun _ =>
          checkPattern rules s
  | .num n => (checkMin rules n).orElse fun _ => checkMax rules n
  | .arr xs => checkMinLength rules (xs.length : Int)
  | _ => none

/-- The `rules.validate` block of part_000's `validateField` lines 30-34. -/
def runCustom (rules : Rules) (value : JSValue) (formValues : FormValues) : JSValue :=
  match rules.validate with
  | some f =>
      match f value formValues with
      | .str s => JSValue.str s
      | .bool false => JSValue.str "Invalid"
      | _ => JSValue.jsnull
  | none => JSValue.jsnull

/-- `validateField` from part_000 lines 12-36. -/
def validateField (field : FormField) (value : JSValue) (formValues : FormValues) : JSValue :=
  match field.rules with
  | none => JSValue.jsnull
  | some rules =>
      if truthy rules.required && isEmpty value then rules.required
      else if isEmpty value then JSValue.jsnull
      else
        match typeChecks rules value with
        | some msg => JSValue.str msg
        | none => runCustom rules value formValues

/-- One arm of the `switch (condition.op)` inside part_000's `isVisible`
(lines 42-51). -/
def evalCond (condition : Condition) (values : FormValues) : Bool :=
  let fieldValue := getProp values condition.field
  if condition.op == "equals" then fieldValue == condition.value
  else if condition.op == "notEquals" then fieldValue != condition.value
  else if condition.op == "in" then
    match condition.value with
    | .arr xs => xs.contains fieldValue
    | _ => false
  else if condition.op == "notIn" then
    match condition.value with
    | .arr xs => !xs.contains fieldValue
    | _ => true
  else true

/-- `isVisible` from part_000 lines 39-52. -/
def isVisible (field : FormField) (values : FormValues) : Bool :=
  match field.visibleWhen with
  | none => true
  | some vw =>
      let conditions := match vw with
        | .single c => [c]
        | .many cs => cs
      conditions.all fun condition => evalCond condition values

/-- The `forEach` body of part_000's `validateForm` (lines 57-61). -/
def validateFormFields (fields : List (String × FormField)) (values : FormValues) : FormErrors :=
  match fields with
  | [] => []
  | (fieldId, field) :: rest =>
      if isVisible field values then
        let error := validateField field (getProp values fieldId) values
        if truthy error then (fieldId, error) :: validateFormFields rest values
        else validateFormFields rest values
      else validateFormFields rest values

/-- `validateForm` from part_000 lines 55-63. -/
def validateForm (schema : FormSchema) (values : FormValues) : FormErrors :=
  validateFormFields schema.fields values

/-- `handleSubmit` from part_000 lines 198-205, observable outcome as in
the first copy: touch all ids, re-validate, call `onSubmit?.(values)` iff
the error map is empty. -/
def handleSubmit (schema : FormSchema) (values : FormValues) : Engine.SubmitOutcome :=
  let allIds := schema.fields.map Prod.fst
  let formErrors := validateForm schema values
  { touched := allIds
    errors := formErrors
    submitted := if formErrors.length == 0 then some values else none }

end Part000

/-!
Helper lemmas about `validateForm`, shared by several claim theorems.
-/

namespace Engine

/-- Every key of the error map built by `validateFormFields` is the key
of some schema field entry. -/
theorem validateFormFields_keys_subset (values : FormValues) (id : String) :
    ∀ fields : List (String × FormField),
      id ∈ (validateFormFields fields values).map Prod.fst →
      id ∈ fields.map Prod.fst := by
  intro fields
  induction fields with
  | nil => simp [validateFormFields]
  | cons p rest ih =>
      obtain ⟨i, f⟩ := p
      simp only [validateFormFields, List.map_cons, List.mem_cons]
      by_cases hv : isVisible f values
      · by_cases ht : truthy (validateField f (getProp values i) values)
        · simp only [hv, ht, if_true, List.map_cons, List.mem_cons]
          rintro (rfl | h)
          · exact Or.inl rfl
          · exact Or.inr (ih h)
        · simp only [hv, ht, if_true, if_false]
          intro h
          exact Or.inr (ih h)
      · simp only [hv, if_false]
        intro h
        exact Or.inr (ih h)

/-- If a schema entry is visible and its validation result is truthy,
that entry's id is recorded with exactly that result in the error map. -/
theorem mem_validateFormFields (values : FormValues) (id : String) (f : FormField) :
    ∀ fields : List (String × FormField),
      (id, f) ∈ fields →
      isVisible f values = true →
      truthy (validateField f (getProp values id) values) = true →
      (id, validateField f (getProp values id) values) ∈ validateFormFields fields values := by
  intro fields
  induction fields with
  | nil => simp
  | cons p rest ih =>
      obtain ⟨i, g⟩ := p
      intro hmem hv ht
      simp only [List.mem_cons] at hmem
      rcases hmem with heq | hmem
      · injection heq with h1 h2
        subst h1
        subst h2
        simp only [validateFormFields, hv, ht, if_true]
        exact List.mem_cons_self _ _
      · have hrec := ih hmem hv ht
        simp only [validateFormFields]
        by_cases hv2 : isVisible g values
        · by_cases ht2 : truthy (validateField g (getProp values i) values)
          · simp only [hv2, ht2, if_true]
            exact List.mem_cons_of_mem _ hrec
          · simp only [hv2, ht2, if_true, if_false]
            exact hrec
        · simp only [hv2, if_false]
          exact hrec

/-- A field that is hidden by its own visibility condition contributes no
key to the error map, provided field ids are unique (as object keys are). -/
theorem hidden_id_not_mem_keys (values : FormValues) (id : String) (f : FormField)
    (hhid : isVisible f values = false) :
    ∀ fields : List (String × FormField),
      (fields.map Prod.fst).Nodup →
      (id, f) ∈ fields →
      id ∉ (validateFormFields fields values).map Prod.fst := by
  intro fields
  induction fields with
  | nil => simp
  | cons p rest ih =>
      obtain ⟨i, g⟩ := p
      intro hnd hmem
      simp only [List.map_cons, List.nodup_cons] at hnd
      obtain ⟨hhead, hrest⟩ := hnd
      simp only [List.mem_cons] at hmem
      rcases hmem with heq | hmem
      · rw [Prod.mk.injEq] at heq
        obtain ⟨rfl, rfl⟩ := heq
        simp only [validateFormFields, hhid, if_false]
        intro hcontra
        exact hhead (validateFormFields_keys_subset values id rest hcontra)
      · have hid : id ∈ rest.map Prod.fst := List.mem_map_of_mem Prod.fst hmem
        have hne : id ≠ i := fun h => hhead (h ▸ hid)
        have hrec := ih hrest hmem
        simp only [validateFormFields]
        by_cases hv2 : isVisible g values
        · by_cases ht2 : truthy (validateField g (getProp values i) values)
          · simp only [hv2, ht2, if_true, List.map_cons, List.mem_cons]
            rintro (h | h)
            · exact hne h
            · exact hrec h
          · simp only [hv2, ht2, if_true, if_false]
            exact hrec
        · simp only [hv2, if_false]
          exact hrec

end Engine

/-!
Concrete inputs used by the per-claim counterexamples and witnesses.
-/

/-- A field with no rules and no visibility condition. -/
def plainField : FormField := {}

/-- A field visible only when the field "a" strictly equals the string
"x". -/
def hiddenBField : FormField :=
  { visibleWhen := some (.single ⟨"a", "equals", .str "x"⟩) }

/-- A two-field schema: "a" unconstrained, "b" visible only when "a"
equals "x". -/
def twoFieldSchema : FormSchema := ⟨[("a", plainField), ("b", hiddenBField)]⟩

/-- A value bag under which "b" is hidden but still holds a stale value. -/
def staleValues : FormValues := [("a", .str "y"), ("b", .str "stale")]

/-!
C1.  The claim says `handleSubmit`, on a fully valid form, passes the
submit callback a values object restricted to currently visible field
identifiers.  The code (FormEngine.tsx line 111) executes
`onSubmit?.(values)`: the complete current value bag is passed, with no
filtering by visibility.  The claim is corrected accordingly.
-/

/-- C1 counterexample: with field "b" hidden and holding a stale value,
submission succeeds and the payload passed to the callback is the whole
value bag, whose keys include the hidden "b". -/
theorem c1_submit_payload_contains_hidden_id :
    Engine.isVisible hiddenBField staleValues = false ∧
    (Engine.handleSubmit twoFieldSchema staleValues).submitted = some staleValues ∧
    "b" ∈ staleValues.map Prod.fst := by decide

/-- C1 (amended): on a value bag with no validation errors,
`handleSubmit` invokes the submit callback exactly once, and the payload
is the entire current value bag — including entries for fields whose
visibility condition evaluates to false. -/
theorem c1_handleSubmit_valid_submits_full_values
    (schema : FormSchema) (values : FormValues)
    (h : Engine.validateForm schema values = []) :
    (Engine.handleSubmit schema values).submitted = some values := by
  simp [Engine.handleSubmit, h]

/-- C1 witness: the amended theorem applied to the concrete two-field
schema, whose validation produces no errors. -/
theorem c1_handleSubmit_valid_submits_full_values_witness :
    (Engine.handleSubmit twoFieldSchema staleValues).submitted = some staleValues :=
  c1_handleSubmit_valid_submits_full_values twoFieldSchema staleValues (by decide)

/-!
C2.  The claim asserts that single-field validation (`validateField`)
returns no error for a field hidden by its own visibility condition.  In
the code, `validateField` never consults `visibleWhen`: the skip happens
one level up, in `validateForm` (line 55).  Its second, "equivalent"
half — that the full-form error map never contains the id of a hidden
field — is what the code actually guarantees.
-/

/-- A required field that is hidden whenever "a" differs from "x". -/
def hiddenRequiredField : FormField :=
  { rules := some { required := .str "req" },
    visibleWhen := some (.single ⟨"a", "equals", .str "x"⟩) }

/-- C2 counterexample: `validateField` on a hidden, required, empty
field returns the required error, not null — single-field validation
does not skip hidden fields. -/
theorem c2_validateField_fires_on_hidden_field :
    Engine.isVisible hiddenRequiredField [] = false ∧
    Engine.validateField hiddenRequiredField .jsnull [] = .str "req" := by decide

/-- C2 (amended): `validateField` itself ignores visibility, but
full-form validation skips hidden fields, so the error map produced by
`validateForm` never contains the identifier of a field hidden by its
own visibility condition (field identifiers being unique object keys). -/
theorem c2_validateForm_never_reports_hidden
    (schema : FormSchema) (values : FormValues) (id : String) (f : FormField)
    (hnd : (schema.fields.map Prod.fst).Nodup)
    (hmem : (id, f) ∈ schema.fields)
    (hhid : Engine.isVisible f values = false) :
    id ∉ (Engine.validateForm schema values).map Prod.fst :=
  Engine.hidden_id_not_mem_keys values id f hhid schema.fields hnd hmem

/-- C2 witness: the hidden required field "b" of a concrete schema never
appears among the error-map keys, although its value is empty. -/
theorem c2_validateForm_never_reports_hidden_witness :
    "b" ∉ (Engine.validateForm ⟨[("a", plainField), ("b", hiddenRequiredField)]⟩ []).map Prod.fst :=
  c2_validateForm_never_reports_hidden ⟨[("a", plainField), ("b", hiddenRequiredField)]⟩ []
    "b" hiddenRequiredField (by decide)
    (List.mem_cons_of_mem _ (List.mem_cons_self _ _)) (by decide)

/-!
C3.  The claim says `handleSubmit` marks every currently-visible field
(and only those) as touched.  The code (lines 107-108) touches
`Object.keys(schema.fields)` — every field of the schema, visible or
not.  It also says the submit callback is never invoked when the schema
contains a required empty field; that holds only when that field is
currently visible (a hidden one is skipped by `validateForm`).
-/

/-- A required field with message "Required" and no visibility
condition. -/
def requiredAField : FormField := { rules := some { required := .str "Required" } }

/-- Schema with a visible required field "a" and a conditionally hidden
field "b". -/
def requiredPlusHiddenSchema : FormSchema := ⟨[("a", requiredAField), ("b", hiddenBField)]⟩

/-- C3 counterexample: submitting with "a" required-and-empty touches
"b" as well, although "b" is hidden — the touched set is all schema
field ids, not the currently-visible ones only. -/
theorem c3_handleSubmit_touches_hidden_fields :
    truthy { required := JSValue.str "Required" : Rules }.required = true ∧
    Engine.isEmpty (getProp [] "a") = true ∧
    Engine.isVisible requiredAField [] = true ∧
    Engine.isVisible hiddenBField [] = false ∧
    (Engine.handleSubmit requiredPlusHiddenSchema []).touched = ["a", "b"] := by decide

/-- C3 (amended): when the schema contains a currently-visible required
field whose value is empty, `handleSubmit` marks every field of the
schema as touched (hidden fields included, since it touches all schema
keys), records that field's configured required value in the error map,
and does not invoke the submit callback. -/
theorem c3_handleSubmit_required_empty_blocks
    (schema : FormSchema) (values : FormValues) (id : String) (f : FormField) (r : Rules)
    (hmem : (id, f) ∈ schema.fields)
    (hr : f.rules = some r)
    (hreq : truthy r.required = true)
    (hempty : Engine.isEmpty (getProp values id) = true)
    (hvis : Engine.isVisible f values = true) :
    (Engine.handleSubmit schema values).touched = schema.fields.map Prod.fst ∧
    (id, r.required) ∈ (Engine.handleSubmit schema values).errors ∧
    (Engine.handleSubmit schema values).submitted = none := by
  have hval : Engine.validateField f (getProp values id) values = r.required := by
    simp [Engine.validateField, hr, hreq, hempty]
  have hmemErr : (id, r.required) ∈ Engine.validateForm schema values := by
    have := Engine.mem_validateFormFields values id f schema.fields hmem hvis
      (by rw [hval]; exact hreq)
    rwa [hval] at this
  refine ⟨rfl, hmemErr, ?_⟩
  have hne : Engine.validateForm schema values ≠ [] := List.ne_nil_of_mem hmemErr
  have hlen : (Engine.validateForm schema values).length ≠ 0 := by
    simpa [List.length_eq_zero] using hne
  simp [Engine.handleSubmit, Nat.beq_eq_true_eq, hlen]

/-- C3 witness: the amended theorem applied to the concrete schema whose
field "a" is required and empty. -/
theorem c3_handleSubmit_required_empty_blocks_witness :
    (Engine.handleSubmit requiredPlusHiddenSchema []).touched
        = requiredPlusHiddenSchema.fields.map Prod.fst ∧
    ("a", JSValue.str "Required") ∈ (Engine.handleSubmit requiredPlusHiddenSchema []).errors ∧
    (Engine.handleSubmit requiredPlusHiddenSchema []).submitted = none :=
  c3_handleSubmit_required_empty_blocks requiredPlusHiddenSchema [] "a" requiredAField
    { required := JSValue.str "Required" }
    (List.mem_cons_self _ _) rfl (by decide) (by decide) (by decide)

/-!
C4.  The first half of the claim (required fires exactly on empty
values, with the code's notion of empty) matches the code.  The second
half does not: when `required` is the boolean `true`, the code returns
`r.required` itself — the boolean `true` — and never builds a
"<label> is required" string from the field's label.
-/

/-- A field labelled "Name" whose `required` rule is the boolean `true`. -/
def boolRequiredField : FormField :=
  { label := "Name", rules := some { required := .bool true } }

/-- C4 counterexample: with `required: true` and an empty value the
engine returns the boolean `true`, which is not the string
"Name is required" that the claim promises to build from the label. -/
theorem c4_required_true_returns_bool_not_label_message :
    Engine.validateField boolRequiredField .jsnull [] = .bool true ∧
    JSValue.bool true ≠ JSValue.str "Name is required" := by decide

/-- C4 (amended): a value is empty exactly when it is null, undefined, a
string trimming to empty, or an empty array; for a truthy `required`
configuration and an empty value, `validateField` returns the configured
`required` value itself — the message string when a string was
configured, and the boolean `true` (not a "<label> is required" string)
when the boolean `true` was configured; an empty value with a non-truthy
`required` yields no error, and a non-empty value never triggers the
required rule. -/
theorem c4_required_fires_iff_empty :
    (∀ v : JSValue, Engine.isEmpty v = true ↔
       (v = .jsnull ∨ v = .undefined ∨ (∃ s, v = .str s ∧ jsTrim s = "") ∨ v = .arr [])) ∧
    (∀ (f : FormField) (r : Rules) (v : JSValue) (all : FormValues),
       f.rules = some r → truthy r.required = true → Engine.isEmpty v = true →
       Engine.validateField f v all = r.required) ∧
    (∀ (f : FormField) (r : Rules) (v : JSValue) (all : FormValues),
       f.rules = some r → truthy r.required = false → Engine.isEmpty v = true →
       Engine.validateField f v all = .jsnull) ∧
    (∀ (f : FormField) (r : Rules) (v : JSValue) (all : FormValues),
       f.rules = some r → r.required = .bool true → Engine.isEmpty v = true →
       Engine.validateField f v all = .bool true) ∧
    (∀ (f : FormField) (r : Rules) (v : JSValue) (all : FormValues),
       f.rules = some r → Engine.isEmpty v = false →
       Engine.typeChecks r v = none → r.validate = none →
       Engine.validateField f v all = .jsnull) := by
  refine ⟨?_, ?_, ?_, ?_, ?_⟩
  · intro v
    cases v with
    | str s => simp [Engine.isEmpty]
    | arr xs => simp [Engine.isEmpty, List.length_eq_zero]
    | _ => simp [Engine.isEmpty]
  · intro f r v all hr hreq hempty
    simp [Engine.validateField, hr, hreq, hempty]
  · intro f r v all hr hreq hempty
    simp [Engine.validateField, hr, hreq, hempty]
  · intro f r v all hr hreq hempty
    have : truthy r.required = true := by rw [hreq]; rfl
    rw [show JSValue.bool true = r.required from hreq.symm]
    simp [Engine.validateField, hr, this, hempty]
  · intro f r v all hr hempty hbi hval
    simp [Engine.validateField, hr, hempty, hbi, Engine.runCustom, hval]

/-- C4 witness: the amended theorem applied at concrete inputs — a
string-configured required rule on the undefined value yields the
configured message. -/
theorem c4_required_fires_iff_empty_witness :
    Engine.validateField requiredAField .undefined [] = .str "Required" :=
  c4_required_fires_iff_empty.2.1 requiredAField { required := .str "Required" }
    .undefined [] rfl (by decide) (by decide)

/-!
C5.  The custom predicate semantics match the claim except for the
generic message: `validateField` line 31 returns the literal "Invalid"
when the predicate returns exactly `false`, not "Validation failed".
-/

/-- A field whose only rule is a custom predicate that always returns
the boolean `false`. -/
def alwaysFalseField : FormField :=
  { rules := some { validate := some fun _ _ => JSValue.bool false } }

/-- C5 counterexample: a custom predicate returning exactly `false` on a
non-empty value produces the error "Invalid", not the claimed generic
message "Validation failed". -/
theorem c5_custom_false_yields_Invalid :
    Engine.validateField alwaysFalseField (.str "x") [] = .str "Invalid" ∧
    JSValue.str "Invalid" ≠ JSValue.str "Validation failed" := by decide

/-- C5 (amended): for a non-empty value passing all built-in rules, the
custom predicate is invoked last with `(value, allValues)`; a string
result becomes the field's error, the result exactly `false` produces
the generic message "Invalid", and any other result (notably `true`)
means the field passes. -/
theorem c5_custom_predicate_results
    (f : FormField) (r : Rules) (g : JSValue → FormValues → JSValue)
    (v : JSValue) (all : FormValues)
    (hr : f.rules = some r) (hg : r.validate = some g)
    (hne : Engine.isEmpty v = false) (hbi : Engine.typeChecks r v = none) :
    (∀ s, g v all = .str s → Engine.validateField f v all = .str s) ∧
    (g v all = .bool false → Engine.validateField f v all = .str "Invalid") ∧
    ((∀ s, g v all ≠ .str s) → g v all ≠ .bool false →
      Engine.validateField f v all = .jsnull) := by
  have hrun : Engine.validateField f v all = Engine.runCustom r v all := by
    simp [Engine.validateField, hr, hne, hbi]
  refine ⟨?_, ?_, ?_⟩
  · intro s hs
    rw [hrun]
    simp [Engine.runCustom, hg, hs]
  · intro hs
    rw [hrun]
    simp [Engine.runCustom, hg, hs]
  · intro hstr hfalse
    rw [hrun]
    simp only [Engine.runCustom, hg]

/-- C5 witness: the amended theorem applied to a concrete predicate
returning `false` on the non-empty string "x". -/
theorem c5_custom_predicate_results_witness :
    Engine.validateField alwaysFalseField (.str "x") [] = .str "Invalid" :=
  (c5_custom_predicate_results alwaysFalseField
      { validate := some fun _ _ => JSValue.bool false }
      (fun _ _ => JSValue.bool false) (.str "x") [] rfl rfl
      (by decide) (by decide)).2.1 rfl

/-!
C6.  The `switch (c.op)` in `isVisible` (lines 41-47) has no cases for
"greaterThan" or "lessThan": both land in `default: return true`.  The
claimed numeric comparison semantics are not implemented; the repository
README likewise documents only equals, notEquals, in and notIn.
-/

/-- A condition demanding the field "a" be greater than 5. -/
def gtCond : Condition := ⟨"a", "greaterThan", .num 5⟩

/-- A field gated on `gtCond`. -/
def gtField : FormField := { visibleWhen := some (.single gtCond) }

/-- C6 counterexample: with `a = 3` (numeric and not greater than 5) the
evaluator returns true, where the claim demands false; it also returns
true on the non-numeric `a = "x"`, where the claim demands false. -/
theorem c6_greaterThan_evaluates_true :
    Engine.evalCond gtCond [("a", .num 3)] = true ∧
    Engine.isVisible gtField [("a", .num 3)] = true ∧
    ¬ ((3 : Int) > 5) ∧
    Engine.evalCond gtCond [("a", .str "x")] = true := by decide

/-- C6 (amended): the condition evaluator implements no greaterThan or
lessThan comparison; conditions with either operator fall into the
fail-open `default` branch and always evaluate to true, whatever the
referenced field's value. -/
theorem c6_greaterThan_lessThan_fail_open
    (c : Condition) (values : FormValues)
    (h : c.op = "greaterThan" ∨ c.op = "lessThan") :
    Engine.evalCond c values = true := by
  rcases h with h | h <;> simp [Engine.evalCond, h]

/-- C6 witness: the amended theorem applied to a lessThan condition over
an empty value bag. -/
theorem c6_greaterThan_lessThan_fail_open_witness :
    Engine.evalCond ⟨"b", "lessThan", .num 0⟩ [] = true :=
  c6_greaterThan_lessThan_fail_open ⟨"b", "lessThan", .num 0⟩ [] (Or.inr rfl)

/-!
C7.  The in/notIn semantics of `isVisible` lines 44-45 match the claim,
including the asymmetric non-sequence fallbacks (false for `in`, true
for `notIn`) and the concrete category scenario.
-/

/-- C7: `in` is true iff the condition literal is an array containing
the referenced field's current value, and false for a non-array literal;
`notIn` is true iff every array the literal equals omits that value —
vacuously true (fails open) for a non-array literal; concretely,
`in ["a","b"]` under `category = "c"` is false and under
`category = "a"` is true. -/
theorem c7_in_notIn_semantics :
    (∀ (c : Condition) (values : FormValues), c.op = "in" →
       (Engine.evalCond c values = true ↔
         ∃ xs, c.value = .arr xs ∧ getProp values c.field ∈ xs)) ∧
    (∀ (c : Condition) (values : FormValues), c.op = "notIn" →
       (Engine.evalCond c values = true ↔
         ∀ xs, c.value = .arr xs → getProp values c.field ∉ xs)) ∧
    (Engine.evalCond ⟨"category", "in", .arr [.str "a", .str "b"]⟩
        [("category", .str "c")] = false ∧
     Engine.evalCond ⟨"category", "in", .arr [.str "a", .str "b"]⟩
        [("category", .str "a")] = true) := by
  refine ⟨?_, ?_, by decide, by decide⟩
  · intro c values h
    simp only [Engine.evalCond, h]
    cases hv : c.value with
    | arr xs => simp [List.contains, List.elem_iff]
    | jsnull => simp
    | undefined => simp
    | bool b => simp
    | num n => simp
    | str s => simp
  · intro c values h
    simp only [Engine.evalCond, h]
    cases hv : c.value with
    | arr xs => simp [List.contains, List.elem_iff]
    | jsnull => simp
    | undefined => simp
    | bool b => simp
    | num n => simp
    | str s => simp

/-- C7 witness: the in-direction applied to a concrete condition whose
literal contains the current field value. -/
theorem c7_in_notIn_semantics_witness :
    Engine.evalCond ⟨"k", "in", .arr [.num 1, .num 2]⟩ [("k", .num 2)] = true :=
  (c7_in_notIn_semantics.1 ⟨"k", "in", .arr [.num 1, .num 2]⟩ [("k", .num 2)] rfl).mpr
    ⟨[.num 1, .num 2], rfl, by decide⟩

/-!
C8.  For a non-empty value, `validateField` applies `minLength` to
strings (line 17) and to arrays (line 26), but `maxLength` to strings
only (line 18): the array branch never consults `maxLength`, so an
over-long array passes.  The claim that both length checks apply "exactly
when the value is a string or a sequence" is corrected accordingly.
-/

/-- A field whose only rule is `maxLength: 1` with message "Too long". -/
def maxLenField : FormField :=
  { rules := some { maxLength := some ⟨1, "Too long"⟩ } }

/-- C8 counterexample: a two-element array exceeds the maxLength
threshold of 1 but validates clean, because the array branch checks
minLength only. -/
theorem c8_maxLength_ignored_for_arrays :
    Engine.validateField maxLenField (.arr [.num 1, .num 2]) [] = .jsnull ∧
    (2 : Int) > 1 := by decide

/-- C8 (amended): for a non-empty value, `minLength` applies to strings
and to sequences, and `maxLength` applies to strings only — a string
shorter than `minLength` or (passing minLength) longer than `maxLength`
yields the rule's message, an array shorter than `minLength` yields that
rule's message, but an array is never checked against `maxLength`. -/
theorem c8_length_rules_by_type
    (f : FormField) (r : Rules) (all : FormValues) (hr : f.rules = some r) :
    (∀ s ml, r.minLength = some ml → Engine.isEmpty (.str s) = false →
       (s.length : Int) < ml.value →
       Engine.validateField f (.str s) all = .str ml.message) ∧
    (∀ s xl, Engine.checkMinLength r (s.length : Int) = none →
       r.maxLength = some xl → Engine.isEmpty (.str s) = false →
       (s.length : Int) > xl.value →
       Engine.validateField f (.str s) all = .str xl.message) ∧
    (∀ xs ml, xs ≠ [] → r.minLength = some ml → (xs.length : Int) < ml.value →
       Engine.validateField f (.arr xs) all = .str ml.message) ∧
    (∀ xs, xs ≠ [] → r.minLength = none → r.validate = none →
       Engine.validateField f (.arr xs) all = .jsnull) := by
  refine ⟨?_, ?_, ?_, ?_⟩
  · intro s ml hml hne hlt
    simp [Engine.validateField, hr, hne, Engine.typeChecks, Engine.checkMinLength,
      hml, hlt, Option.orElse]
  · intro s xl hmin hxl hne hgt
    simp [Engine.validateField, hr, hne, Engine.typeChecks, hmin,
      Engine.checkMaxLength, hxl, hgt, Option.orElse]
  · intro xs ml hxs hml hlt
    have hne : Engine.isEmpty (.arr xs) = false := by
      simp [Engine.isEmpty, List.length_eq_zero, hxs]
    simp [Engine.validateField, hr, hne, Engine.typeChecks, Engine.checkMinLength,
      hml, hlt]
  · intro xs hxs hml hval
    have hne : Engine.isEmpty (.arr xs) = false := by
      simp [Engine.isEmpty, List.length_eq_zero, hxs]
    simp [Engine.validateField, hr, hne, Engine.typeChecks, Engine.checkMinLength,
      hml, Engine.runCustom, hval]

/-- C8 witness: the amended theorem applied to a concrete minLength rule
violated by the two-character string "ab". -/
theorem c8_length_rules_by_type_witness :
    Engine.validateField { rules := some { minLength := some ⟨3, "Min"⟩ } }
      (.str "ab") [] = .str "Min" :=
  (c8_length_rules_by_type { rules := some { minLength := some ⟨3, "Min"⟩ } }
      { minLength := some ⟨3, "Min"⟩ } [] rfl).1 "ab" ⟨3, "Min"⟩ rfl
    (by decide) (by decide)

/-!
C9.  Booleans and numbers are never empty (`isEmpty` tests only
null/undefined, strings and arrays), so the required rule cannot fire
for `false` or `0`; and no built-in branch of `validateField` matches a
boolean value, so a boolean-valued field validates clean unless a custom
predicate rejects it.
-/

/-- C9: booleans and numbers are never empty, and a boolean-valued field
without a custom predicate (or without rules at all) always validates
clean — even an unchecked checkbox holding `false` under a truthy
`required` configuration. -/
theorem c9_boolean_values_validate_clean :
    (∀ b, Engine.isEmpty (.bool b) = false) ∧
    (∀ n : Int, Engine.isEmpty (.num n) = false) ∧
    (∀ (f : FormField) (r : Rules) (b : Bool) (all : FormValues),
       f.rules = some r → r.validate = none →
       Engine.validateField f (.bool b) all = .jsnull) ∧
    (∀ (f : FormField) (b : Bool) (all : FormValues),
       f.rules = none → Engine.validateField f (.bool b) all = .jsnull) := by
  refine ⟨fun b => rfl, fun n => rfl, ?_, ?_⟩
  · intro f r b all hr hval
    simp [Engine.validateField, hr, Engine.isEmpty, Engine.typeChecks,
      Engine.runCustom, hval]
  · intro f b all hr
    simp [Engine.validateField, hr]

/-- C9 witness: an unchecked checkbox — the value `false` under a field
that is required with a message — validates clean. -/
theorem c9_boolean_values_validate_clean_witness :
    Engine.validateField requiredAField (.bool false) [] = .jsnull :=
  c9_boolean_values_validate_clean.2.2.1 requiredAField
    { required := .str "Required" } false [] rfl rfl

/-!
C10.  The engine logic exists twice: in `src/src/engine/FormEngine.tsx`
and in `src/unnamed/part_000`.  The two copies of `validateField`,
`isVisible` and `validateForm` differ only in local variable names, and
their translations agree extensionally (the first two definitionally;
`validateForm` by induction over the field list).
-/

/-- The two copies build identical error maps from any field list; used
to compare the recursive `validateForm` bodies. -/
theorem copies_validateFormFields_agree (values : FormValues) :
    ∀ fields, Part000.validateFormFields fields values
        = Engine.validateFormFields fields values
  | [] => rfl
  | (id, f) :: rest => by
      simp only [Part000.validateFormFields, Engine.validateFormFields]
      rw [copies_validateFormFields_agree values rest]
      rfl

/-- C10: the engine copy in FormEngine.tsx and the copy in part_000 are
extensionally equal — `validateField`, `isVisible` and `validateForm`
return the same result on every field definition, value and value bag. -/
theorem c10_engine_copies_agree :
    (∀ (f : FormField) (v : JSValue) (all : FormValues),
       Part000.validateField f v all = Engine.validateField f v all) ∧
    (∀ (f : FormField) (values : FormValues),
       Part000.isVisible f values = Engine.isVisible f values) ∧
    (∀ (schema : FormSchema) (values : FormValues),
       Part000.validateForm schema values = Engine.validateForm schema values) :=
  ⟨fun _ _ _ => rfl, fun _ _ => rfl,
   fun schema values => copies_validateFormFields_agree values schema.fields⟩
